import Mathlib

/-!
Shallow embedding of the WAVE stereo/mono conversion module (estereo.py).

Files are modelled as lists of byte values (`List Nat`, entries below 256).
Python exceptions become an explicit error type; each constructor corresponds
to one raise site or raising library call of the source.
-/

set_option linter.unusedVariables false

/-- Error kinds of the source.  Each constructor stands for one distinct
failure of the Python code: the ValueError raise sites of estereo.py, plus
the errors raised by struct.unpack, struct.pack and int.to_bytes. -/
inductive WaveError where
  /-- struct.unpack or struct.pack applied to data of the wrong size or to a
  value that does not fit the requested field. -/
  | structError
  /-- ValueError: Formato RIFF/WAVE no valido. -/
  | formatRiffWave
  /-- ValueError: Subchunk fmt no valido o no PCM. -/
  | formatFmt
  /-- ValueError: Subchunk data no encontrado. -/
  | formatData
  /-- ValueError of estereo2mono: El archivo no es estereo. -/
  | notStereo
  /-- ValueError of mono2stereo: Ambos ficheros deben ser monofonicos. -/
  | notMono
  /-- ValueError of mono2stereo: Las frecuencias de muestreo no coinciden. -/
  | mismatchSampleRate
  /-- ValueError of mono2stereo: Los bits por muestra no coinciden. -/
  | mismatchBits
  /-- ValueError of mono2stereo: Las longitudes de los datos no coinciden. -/
  | mismatchDataSize
  /-- ValueError of codEstereo: El fichero debe ser estereo de 16 bits. -/
  | unsupportedStereo16
  /-- ValueError of decEstereo: El fichero debe ser monofonico de 32 bits. -/
  | unsupportedMono32
  /-- ValueError of procesar_muestra: Canal invalido. -/
  | invalidCanal
  /-- OverflowError of int.to_bytes: value out of range for the length. -/
  | overflowToBytes
  /-- ValueError of range when the slicing stride is zero, reachable only
  through a header declaring fewer than 8 bits per sample. -/
  | rangeStepZero
deriving DecidableEq, Repr

/-- Value of a little-endian byte list, as computed by int.from_bytes with
byteorder little (unsigned reading). -/
def bytesToNat : List Nat → Nat
  | [] => 0
  | b :: bs => b + 256 * bytesToNat bs

/-- Little-endian byte list of a given length for a natural number, as laid
down by struct.pack and int.to_bytes once the value is known to fit. -/
def natToBytes : Nat → Nat → List Nat
  | _, 0 => []
  | n, len + 1 => n % 256 :: natToBytes (n / 256) len

/-- Signed reading of a little-endian byte list: int.from_bytes with
byteorder little and signed True. -/
def intFromBytesSigned (bs : List Nat) : Int :=
  let u := bytesToNat bs
  if u < 2 ^ (8 * bs.length - 1) then (u : Int) else (u : Int) - 2 ^ (8 * bs.length)

/-- Signed little-endian encoding: int.to_bytes with byteorder little and
signed True, which raises OverflowError (here: none) when the value does not
fit in the requested number of bytes. -/
def intToBytesSigned (x : Int) (len : Nat) : Option (List Nat) :=
  if -2 ^ (8 * len - 1) ≤ x ∧ x < 2 ^ (8 * len - 1) then
    some (natToBytes (x % (2 : Int) ^ (8 * len)).toNat len)
  else none

/-- Structural worker for chunks: the first argument is fuel, always called
with at least the length of the list, so the recursion is structural and
computations reduce in the kernel. -/
def chunksF : Nat → Nat → List Nat → List (List Nat)
  | _, _, [] => []
  | 0, _, _ :: _ => []
  | fuel + 1, n, b :: bs => (b :: bs.take (n - 1)) :: chunksF fuel n (bs.drop (n - 1))

/-- Python slicing into fixed strides: the list of slices l[i : i+n] for i in
range(0, len(l), n).  Meaningful for n at least 1, which is the only way the
source uses it. -/
def chunks (n : Nat) (l : List Nat) : List (List Nat) :=
  chunksF l.length n l

/-- The fuel of chunksF is irrelevant once it covers the list length. -/
theorem chunksF_congr (fuel : Nat) : ∀ fuel' n : Nat, ∀ l : List Nat,
    l.length ≤ fuel → l.length ≤ fuel' → chunksF fuel n l = chunksF fuel' n l := by
  induction fuel with
  | zero =>
    intro fuel' n l h h'
    match l, h with
    | [], _ => cases fuel' <;> rfl
  | succ f ih =>
    intro fuel' n l h h'
    match l with
    | [] => cases fuel' <;> rfl
    | b :: bs =>
      match fuel' with
      | f' + 1 =>
        show (b :: bs.take (n - 1)) :: chunksF f n (bs.drop (n - 1)) =
          (b :: bs.take (n - 1)) :: chunksF f' n (bs.drop (n - 1))
        have hd : (bs.drop (n - 1)).length ≤ bs.length := by
          simp only [List.length_drop]; omega
        simp only [List.length_cons] at h h'
        rw [ih f' n (bs.drop (n - 1)) (by omega) (by omega)]

/-- Unfolding of chunks on a nonempty list. -/
theorem chunks_cons (n b : Nat) (bs : List Nat) :
    chunks n (b :: bs) = (b :: bs.take (n - 1)) :: chunks n (bs.drop (n - 1)) := by
  show (b :: bs.take (n - 1)) :: chunksF bs.length n (bs.drop (n - 1)) = _
  unfold chunks
  rw [chunksF_congr bs.length (bs.drop (n - 1)).length n (bs.drop (n - 1))
    (by simp only [List.length_drop]; omega) (Nat.le_refl _)]

/-- Unfolding of chunks on the empty list. -/
theorem chunks_nil (n : Nat) : chunks n [] = [] := rfl

/-- Conversion of a 16-bit unsigned value to signed, line 187 of the source:
x if x < 0x8000 else x - 0x10000. -/
def int16 (x : Nat) : Int :=
  if x < 32768 then (x : Int) else (x : Int) - 65536

/-- Clamp into the signed 16-bit range, line 191 of the source:
max(-32768, min(32767, x)). -/
def saturar16 (x : Int) : Int :=
  max (-32768) (min 32767 x)

/-- Python bitwise and with 0xFFFF on a possibly negative int, which equals
the nonnegative remainder modulo 65536. -/
def mask16 (x : Int) : Nat :=
  (x % 65536).toNat

/-- Per-sample encoder of codEstereo, line 178 of the source:
(((L + R) // 2 and 0xFFFF) shifted left 16) or ((L - R) // 2 and 0xFFFF),
an unsigned 32-bit composite.  Python // is flooring division, Int.fdiv. -/
def pack32 (L R : Int) : Nat :=
  mask16 ((L + R).fdiv 2) * 65536 + mask16 ((L - R).fdiv 2)

/-- Per-sample decoder of decEstereo, lines 210 and 211 of the source:
left = saturar16((m >> 16) + int16(m & 0xFFFF)),
right = saturar16((m >> 16) - int16(m & 0xFFFF)).
The high half m >> 16 is used as is, without sign extension. -/
def unpack32 (m : Nat) : Int × Int :=
  (saturar16 (((m >>> 16 : Nat) : Int) + int16 (m % 65536)),
   saturar16 (((m >>> 16 : Nat) : Int) - int16 (m % 65536)))

/-- Channel selection and combination of procesar_muestra, lines 90 to 99 of
the source, on the already decoded sample values: 0 keeps the left sample,
1 the right, 2 the floored half-sum, 3 the floored half-difference; any
other mode raises (none). -/
def procesar_res (L R : Int) (canal : Nat) : Option Int :=
  if canal = 0 then some L
  else if canal = 1 then some R
  else if canal = 2 then some ((L + R).fdiv 2)
  else if canal = 3 then some ((L - R).fdiv 2)
  else none

/-- procesar_muestra, lines 75 to 101 of the source: decode the two channel
samples of a stereo frame (slices m[:tam] and m[tam:2*tam], signed little
endian), combine them according to canal, and re-encode the result in tam
signed bytes. -/
def procesar_muestra (m : List Nat) (tam canal : Nat) : Except WaveError (List Nat) :=
  match procesar_res (intFromBytesSigned (m.take tam))
      (intFromBytesSigned ((m.drop tam).take tam)) canal with
  | none => .error .invalidCanal
  | some res =>
    match intToBytesSigned res tam with
    | none => .error .overflowToBytes
    | some bs => .ok bs

/-- The four ASCII bytes of the container tag RIFF. -/
def b_RIFF : List Nat := [82, 73, 70, 70]

/-- The four ASCII bytes of the format tag WAVE. -/
def b_WAVE : List Nat := [87, 65, 86, 69]

/-- The four ASCII bytes of the format subchunk id, fmt followed by space. -/
def b_fmt : List Nat := [102, 109, 116, 32]

/-- The four ASCII bytes of the data subchunk id. -/
def b_data : List Nat := [100, 97, 116, 97]

/-- Header record returned by leer_cabecera_wave, lines 45 to 52 of the
source: the dictionary with the six retained fields. -/
structure Cabecera where
  num_channels : Nat
  sample_rate : Nat
  byte_rate : Nat
  block_align : Nat
  bits_per_sample : Nat
  data_size : Nat
deriving DecidableEq, Repr

/-- leer_cabecera_wave, lines 19 to 52 of the source, on the byte contents of
the stream.  Reads 12 + 8 + 16 + 8 header bytes in four struct.unpack calls
(each raising struct.error when the stream is too short), checks the RIFF and
WAVE tags, the fmt subchunk id with size 16 and the data subchunk id, and
returns the header record together with the bytes after the header (the
stream position after the reads).  The RIFF chunk size and the audio format
code are read but neither checked nor retained, as in the source. -/
def leer_cabecera_wave : List Nat → Except WaveError (Cabecera × List Nat)
  | a0 :: a1 :: a2 :: a3 :: s0 :: s1 :: s2 :: s3 :: w0 :: w1 :: w2 :: w3 :: r1 =>
    if [a0, a1, a2, a3] ≠ b_RIFF ∨ [w0, w1, w2, w3] ≠ b_WAVE then .error .formatRiffWave
    else match r1 with
      | d0 :: d1 :: d2 :: d3 :: e0 :: e1 :: e2 :: e3 :: r2 =>
        if [d0, d1, d2, d3] ≠ b_fmt ∨ bytesToNat [e0, e1, e2, e3] ≠ 16 then .error .formatFmt
        else match r2 with
          | f0 :: f1 :: g0 :: g1 :: h0 :: h1 :: h2 :: h3 ::
              i0 :: i1 :: i2 :: i3 :: j0 :: j1 :: k0 :: k1 :: r3 =>
            match r3 with
            | l0 :: l1 :: l2 :: l3 :: m0 :: m1 :: m2 :: m3 :: r4 =>
              if [l0, l1, l2, l3] ≠ b_data then .error .formatData
              else .ok (⟨bytesToNat [g0, g1], bytesToNat [h0, h1, h2, h3],
                  bytesToNat [i0, i1, i2, i3], bytesToNat [j0, j1],
                  bytesToNat [k0, k1], bytesToNat [m0, m1, m2, m3]⟩, r4)
            | _ => .error .structError
          | _ => .error .structError
      | _ => .error .structError
  | _ => .error .structError

/-- escribir_cabecera_wave, lines 54 to 73 of the source: computes byte_rate,
block_align and the RIFF total size and emits the 44 header bytes through
four struct.pack calls.  struct.pack raises (here: none) when a value does
not fit its 2-byte or 4-byte field; otherwise every numeric field is written
little endian, with audio format code 1 and fmt chunk size 16. -/
def escribir_cabecera_wave (num_channels sample_rate bits_per_sample data_size : Nat) :
    Option (List Nat) :=
  let byte_rate := sample_rate * num_channels * bits_per_sample / 8
  let block_align := num_channels * bits_per_sample / 8
  let total_size := 4 + (8 + 16) + (8 + data_size)
  if total_size < 4294967296 ∧ num_channels < 65536 ∧ sample_rate < 4294967296 ∧
      byte_rate < 4294967296 ∧ block_align < 65536 ∧ bits_per_sample < 65536 ∧
      data_size < 4294967296 then
    some (b_RIFF ++ natToBytes total_size 4 ++ b_WAVE ++
      b_fmt ++ natToBytes 16 4 ++
      natToBytes 1 2 ++ natToBytes num_channels 2 ++ natToBytes sample_rate 4 ++
      natToBytes byte_rate 4 ++ natToBytes block_align 2 ++ natToBytes bits_per_sample 2 ++
      b_data ++ natToBytes data_size 4)
  else none

/-- The per-frame loop of estereo2mono, line 124 of the source: apply
procesar_muestra to every frame in order, propagating the first error. -/
def procesarTodas (ms : List (List Nat)) (tam canal : Nat) :
    Except WaveError (List (List Nat)) :=
  match ms with
  | [] => .ok []
  | m :: t =>
    match procesar_muestra m tam canal with
    | .error e => .error e
    | .ok r =>
      match procesarTodas t tam canal with
      | .error e => .error e
      | .ok rs => .ok (r :: rs)

/-- estereo2mono, lines 103 to 128 of the source, as a function from the
input file bytes to the output file bytes.  Parses the header, requires two
channels, reads at most data_size payload bytes, converts each 2*tam byte
frame with procesar_muestra, and emits a one-channel header (with data_size
the length of the transformed payload) followed by that payload. -/
def estereo2mono (ficEste : List Nat) (canal : Nat) : Except WaveError (List Nat) :=
  match leer_cabecera_wave ficEste with
  | .error e => .error e
  | .ok (cab, rest) =>
    if cab.num_channels ≠ 2 then .error .notStereo
    else
      let datos := rest.take cab.data_size
      let tam := cab.bits_per_sample / 8
      if 2 * tam = 0 then .error .rangeStepZero
      else match procesarTodas (chunks (2 * tam) datos) tam canal with
      | .error e => .error e
      | .ok partes =>
        let datos_mono := partes.flatten
        match escribir_cabecera_wave 1 cab.sample_rate cab.bits_per_sample datos_mono.length with
        | none => .error .structError
        | some cabBytes => .ok (cabBytes ++ datos_mono)

/-- The interleaving loop of mono2stereo, line 156 of the source:
concatenation over i in range(0, len(izq), tam) of izq[i : i+tam] followed by
der[i : i+tam].  Meaningful for tam at least 1, the only way the source
reaches it. -/
def mono2stereoPayloadF : Nat → Nat → List Nat → List Nat → List Nat
  | _, _, [], _ => []
  | 0, _, _ :: _, _ => []
  | fuel + 1, tam, b :: bs, der =>
    (b :: bs.take (tam - 1)) ++ der.take tam ++
      mono2stereoPayloadF fuel tam (bs.drop (tam - 1)) (der.drop tam)

/-- The interleaving loop of mono2stereo, driven by a structural worker whose
fuel always covers the length of the left list. -/
def mono2stereoPayload (tam : Nat) (izq der : List Nat) : List Nat :=
  mono2stereoPayloadF izq.length tam izq der

/-- The fuel of mono2stereoPayloadF is irrelevant once it covers the length
of the left list. -/
theorem mono2stereoPayloadF_congr (fuel : Nat) : ∀ fuel' tam : Nat,
    ∀ izq der : List Nat, izq.length ≤ fuel → izq.length ≤ fuel' →
    mono2stereoPayloadF fuel tam izq der = mono2stereoPayloadF fuel' tam izq der := by
  induction fuel with
  | zero =>
    intro fuel' tam izq der h h'
    match izq, h with
    | [], _ => cases fuel' <;> rfl
  | succ f ih =>
    intro fuel' tam izq der h h'
    match izq with
    | [] => cases fuel' <;> rfl
    | b :: bs =>
      match fuel' with
      | f' + 1 =>
        show (b :: bs.take (tam - 1)) ++ der.take tam ++
            mono2stereoPayloadF f tam (bs.drop (tam - 1)) (der.drop tam) =
          (b :: bs.take (tam - 1)) ++ der.take tam ++
            mono2stereoPayloadF f' tam (bs.drop (tam - 1)) (der.drop tam)
        have hd : (bs.drop (tam - 1)).length ≤ bs.length := by
          simp only [List.length_drop]; omega
        simp only [List.length_cons] at h h'
        rw [ih f' tam (bs.drop (tam - 1)) (der.drop tam) (by omega) (by omega)]

/-- Unfolding of the interleaving loop on a nonempty left list. -/
theorem mono2stereoPayload_cons (tam b : Nat) (bs der : List Nat) :
    mono2stereoPayload tam (b :: bs) der =
      (b :: bs.take (tam - 1)) ++ der.take tam ++
        mono2stereoPayload tam (bs.drop (tam - 1)) (der.drop tam) := by
  show (b :: bs.take (tam - 1)) ++ der.take tam ++
      mono2stereoPayloadF bs.length tam (bs.drop (tam - 1)) (der.drop tam) = _
  unfold mono2stereoPayload
  rw [mono2stereoPayloadF_congr bs.length (bs.drop (tam - 1)).length tam
    (bs.drop (tam - 1)) (der.drop tam)
    (by simp only [List.length_drop]; omega) (Nat.le_refl _)]

/-- Unfolding of the interleaving loop on the empty left list. -/
theorem mono2stereoPayload_nil (tam : Nat) (der : List Nat) :
    mono2stereoPayload tam [] der = [] := rfl

/-- mono2stereo, lines 130 to 160 of the source, as a function from the two
input file byte lists to the output file bytes.  Parses both headers,
requires both to be one channel, requires equal sample_rate, bits_per_sample
and data_size (in that order, each with its own error), interleaves the two
payloads frame by frame, and emits a two-channel header followed by the
interleaved payload. -/
def mono2stereo (ficIzq ficDer : List Nat) : Except WaveError (List Nat) :=
  match leer_cabecera_wave ficIzq with
  | .error e => .error e
  | .ok (cab_izq, rest_izq) =>
    match leer_cabecera_wave ficDer with
    | .error e => .error e
    | .ok (cab_der, rest_der) =>
      if cab_izq.num_channels ≠ 1 ∨ cab_der.num_channels ≠ 1 then .error .notMono
      else if cab_izq.sample_rate ≠ cab_der.sample_rate then .error .mismatchSampleRate
      else if cab_izq.bits_per_sample ≠ cab_der.bits_per_sample then .error .mismatchBits
      else if cab_izq.data_size ≠ cab_der.data_size then .error .mismatchDataSize
      else
        let datos_izq := rest_izq.take cab_izq.data_size
        let datos_der := rest_der.take cab_der.data_size
        let tam := cab_izq.bits_per_sample / 8
        if tam = 0 then .error .rangeStepZero
        else
        let datos_stereo := mono2stereoPayload tam datos_izq datos_der
        match escribir_cabecera_wave 2 cab_izq.sample_rate cab_izq.bits_per_sample
            datos_stereo.length with
        | none => .error .structError
        | some cabBytes => .ok (cabBytes ++ datos_stereo)

/-- The sample-pair reading loop of codEstereo, line 177 of the source:
struct.unpack of two little-endian signed 16-bit values from each 4-byte
slice, raising struct.error on a short final slice. -/
def leerParejas (ms : List (List Nat)) : Except WaveError (List (Int × Int)) :=
  match ms with
  | [] => .ok []
  | m :: t =>
    if m.length = 4 then
      match leerParejas t with
      | .error e => .error e
      | .ok rs => .ok ((intFromBytesSigned (m.take 2), intFromBytesSigned (m.drop 2)) :: rs)
    else .error .structError

/-- codEstereo, lines 162 to 183 of the source, as a function from the input
file bytes to the output file bytes.  Parses the header, requires two
channels and 16 bits per sample, reads the sample pairs, packs each with
pack32 into 4 little-endian bytes, and emits a one-channel 32-bit header
followed by the coded payload. -/
def codEstereo (ficEste : List Nat) : Except WaveError (List Nat) :=
  match leer_cabecera_wave ficEste with
  | .error e => .error e
  | .ok (cab, rest) =>
    if cab.num_channels ≠ 2 ∨ cab.bits_per_sample ≠ 16 then .error .unsupportedStereo16
    else
      let datos := rest.take cab.data_size
      match leerParejas (chunks 4 datos) with
      | .error e => .error e
      | .ok muestras =>
        let datos_cod := (muestras.map (fun p => natToBytes (pack32 p.1 p.2) 4)).flatten
        match escribir_cabecera_wave 1 cab.sample_rate 32 datos_cod.length with
        | none => .error .structError
        | some cabBytes => .ok (cabBytes ++ datos_cod)

/-- The coded-sample reading loop of decEstereo, line 207 of the source:
struct.unpack of one little-endian unsigned 32-bit value from each 4-byte
slice, raising struct.error on a short final slice. -/
def leerMuestras32 (ms : List (List Nat)) : Except WaveError (List Nat) :=
  match ms with
  | [] => .ok []
  | m :: t =>
    if m.length = 4 then
      match leerMuestras32 t with
      | .error e => .error e
      | .ok rs => .ok (bytesToNat m :: rs)
    else .error .structError

/-- The per-sample re-encoding of decEstereo, lines 208 to 213 of the source:
struct.pack of the two decoded channel values as little-endian signed 16-bit
fields, raising (here: an error) when a value is out of range, which the
saturation prevents. -/
def empaquetar_hh (l r : Int) : Except WaveError (List Nat) :=
  match intToBytesSigned l 2, intToBytesSigned r 2 with
  | some a, some b => .ok (a ++ b)
  | _, _ => .error .structError

/-- The reconstruction loop of decEstereo, lines 208 to 213 of the source:
unpack32 on each coded sample, then re-encoding of both channels. -/
def reconstruirTodas (ms : List Nat) : Except WaveError (List (List Nat)) :=
  match ms with
  | [] => .ok []
  | m :: t =>
    match empaquetar_hh (unpack32 m).1 (unpack32 m).2 with
    | .error e => .error e
    | .ok r =>
      match reconstruirTodas t with
      | .error e => .error e
      | .ok rs => .ok (r :: rs)

/-- decEstereo, lines 193 to 218 of the source, as a function from the input
file bytes to the output file bytes.  Parses the header, requires one channel
and 32 bits per sample, reads the coded samples, decodes each with unpack32,
and emits a two-channel 16-bit header followed by the decoded payload. -/
def decEstereo (ficCod : List Nat) : Except WaveError (List Nat) :=
  match leer_cabecera_wave ficCod with
  | .error e => .error e
  | .ok (cab, rest) =>
    if cab.num_channels ≠ 1 ∨ cab.bits_per_sample ≠ 32 then .error .unsupportedMono32
    else
      let datos := rest.take cab.data_size
      match leerMuestras32 (chunks 4 datos) with
      | .error e => .error e
      | .ok muestras =>
        match reconstruirTodas muestras with
        | .error e => .error e
        | .ok reconstruidas =>
          let datos_estereo := reconstruidas.flatten
          match escribir_cabecera_wave 2 cab.sample_rate 16 datos_estereo.length with
          | none => .error .structError
          | some cabBytes => .ok (cabBytes ++ datos_estereo)

/-! ### Helper lemmas -/

/-- Flooring division by two agrees with Euclidean division by two. -/
theorem fdiv_two_eq_ediv (a : Int) : a.fdiv 2 = a / 2 :=
  Int.fdiv_eq_ediv a (by norm_num)

/-! ### C2: spec-side decode formula -/

/-- Sign extension of a 16-bit unsigned value, written from the words of the
spec (section 4.2, unpack32) for comparison with the source. -/
def sign_extend_16 (x : Nat) : Int :=
  if x < 32768 then (x : Int) else (x : Int) - 65536

/-- Clamping into the inclusive range -32768 to 32767, written from the words
of the spec (section 4.2, unpack32) for comparison with the source. -/
def saturate16 (x : Int) : Int :=
  if x < -32768 then -32768 else if 32767 < x then 32767 else x

/-- Per-sample decode as the spec words it: the high 16 bits used as-is
without sign extension, only the low 16 bits sign-extended, both results
clamped.  Written from the spec for comparison with unpack32. -/
def unpack32_spec (c : Nat) : Int × Int :=
  (saturate16 (((c >>> 16 : Nat) : Int) + sign_extend_16 (c % 65536)),
   saturate16 (((c >>> 16 : Nat) : Int) - sign_extend_16 (c % 65536)))

/-- C2: the per-sample step of decEstereo computes
left = saturate16((c >> 16) + sign_extend_16(c mod 2^16)) and
right = saturate16((c >> 16) - sign_extend_16(c mod 2^16)), with the high
16 bits used as-is and saturation clamping into -32768..32767; whenever the
raw sum (respectively difference) exceeds 32767 the emitted channel is
exactly 32767, not a wrapped value. -/
theorem C2_decode_formula :
    (∀ c : Nat, unpack32 c = unpack32_spec c) ∧
    (∀ c : Nat, 32767 < ((c >>> 16 : Nat) : Int) + int16 (c % 65536) →
      (unpack32 c).1 = 32767) ∧
    (∀ c : Nat, 32767 < ((c >>> 16 : Nat) : Int) - int16 (c % 65536) →
      (unpack32 c).2 = 32767) := by
  refine ⟨fun c => ?_, fun c h => ?_, fun c h => ?_⟩
  · unfold unpack32 unpack32_spec saturar16 saturate16 int16 sign_extend_16
    rw [Prod.mk.injEq]
    constructor <;> split_ifs <;> omega
  · unfold unpack32 saturar16 int16 at *
    split_ifs at * <;> omega
  · unfold unpack32 saturar16 int16 at *
    split_ifs at * <;> omega

/-- C2 witness: concrete coded samples whose raw sum (respectively
difference) exceeds 32767 decode to a saturated 32767 channel. -/
theorem C2_decode_formula_witness :
    (unpack32 1310740000).1 = 32767 ∧ (unpack32 2621500000).2 = 32767 :=
  ⟨C2_decode_formula.2.1 1310740000 (by decide),
   C2_decode_formula.2.2 2621500000 (by decide)⟩

/-- C1 counterexample: the round trip is not exact for every in-range stereo
pair.  The pair (1, 0) has an odd sum, its halved mid and side lose the low
bit, and it decodes to (0, 0); the pair (-2, -2) has a negative mid whose
high 16 stored bits are reinterpreted as a large unsigned value and it
decodes to (32767, 32767). -/
theorem C1_roundtrip_counterexample :
    unpack32 (pack32 1 0) ≠ (1, 0) ∧ unpack32 (pack32 (-2) (-2)) ≠ (-2, -2) := by
  decide

/-- C1 amended: the encode-decode round trip of the per-sample steps of
codEstereo and decEstereo is exact, with no saturation triggered, for every
16-bit pair whose sum is even (no low bit is lost in the halving) and
nonnegative (the stored mid reads back identically without sign extension). -/
theorem C1_roundtrip_amended (L R : Int) (hL1 : -32768 ≤ L) (hL2 : L ≤ 32767)
    (hR1 : -32768 ≤ R) (hR2 : R ≤ 32767)
    (heven : (L + R) % 2 = 0) (hnn : 0 ≤ L + R) :
    unpack32 (pack32 L R) = (L, R) ∧
    -32768 ≤ ((pack32 L R >>> 16 : Nat) : Int) + int16 (pack32 L R % 65536) ∧
    ((pack32 L R >>> 16 : Nat) : Int) + int16 (pack32 L R % 65536) ≤ 32767 ∧
    -32768 ≤ ((pack32 L R >>> 16 : Nat) : Int) - int16 (pack32 L R % 65536) ∧
    ((pack32 L R >>> 16 : Nat) : Int) - int16 (pack32 L R % 65536) ≤ 32767 := by
  unfold pack32 unpack32 mask16 int16 saturar16
  rw [fdiv_two_eq_ediv, fdiv_two_eq_ediv]
  simp only [Nat.shiftRight_eq_div_pow, Prod.mk.injEq]
  norm_num
  refine ⟨⟨?_, ?_⟩, ?_, ?_, ?_, ?_⟩ <;> split_ifs <;> omega

/-- C1 witness: the amended round trip at the concrete in-range pair
(10, 4), whose sum is even and nonnegative. -/
theorem C1_roundtrip_witness :
    unpack32 (pack32 10 4) = (10, 4) ∧
    -32768 ≤ ((pack32 10 4 >>> 16 : Nat) : Int) + int16 (pack32 10 4 % 65536) ∧
    ((pack32 10 4 >>> 16 : Nat) : Int) + int16 (pack32 10 4 % 65536) ≤ 32767 ∧
    -32768 ≤ ((pack32 10 4 >>> 16 : Nat) : Int) - int16 (pack32 10 4 % 65536) ∧
    ((pack32 10 4 >>> 16 : Nat) : Int) - int16 (pack32 10 4 % 65536) ≤ 32767 :=
  C1_roundtrip_amended 10 4 (by decide) (by decide) (by decide) (by decide)
    (by decide) (by decide)

/-- C3: in mode 2 procesar_muestra computes the floored half-sum and in mode
3 the floored half-difference; the quotient q is characterised by
2q less-or-equal x less-than 2q+2, so rounding is toward negative infinity
also for negative operands, and the concrete negative cases show flooring
rather than truncation toward zero. -/
theorem C3_floor_division : ∀ L R : Int,
    procesar_res L R 2 = some ((L + R).fdiv 2) ∧
    procesar_res L R 3 = some ((L - R).fdiv 2) ∧
    2 * (L + R).fdiv 2 ≤ L + R ∧ L + R < 2 * ((L + R).fdiv 2) + 2 ∧
    2 * (L - R).fdiv 2 ≤ L - R ∧ L - R < 2 * ((L - R).fdiv 2) + 2 ∧
    procesar_res (-1) (-2) 2 = some (-2) ∧
    procesar_res (-1) 2 3 = some (-2) := by
  intro L R
  refine ⟨rfl, rfl, ?_, ?_, ?_, ?_, by decide, by decide⟩ <;>
    rw [fdiv_two_eq_ediv] <;> omega

/-- C4: the concrete frame L=100, R=50 at 16 bits: mode 2 yields 75, mode 3
yields 25 (also at byte level), the packed coded sample is (75 shifted left
16) or-ed with 25, and unpacking it returns (100, 50). -/
theorem C4_concrete_scenario :
    procesar_muestra [100, 0, 50, 0] 2 2 = .ok [75, 0] ∧
    procesar_muestra [100, 0, 50, 0] 2 3 = .ok [25, 0] ∧
    procesar_res 100 50 2 = some 75 ∧
    procesar_res 100 50 3 = some 25 ∧
    pack32 100 50 = 75 <<< 16 ||| 25 ∧
    unpack32 (75 <<< 16 ||| 25) = (100, 50) :=
  ⟨rfl, rfl, rfl, rfl, by decide, by decide⟩

/-- C6: for in-range signed 16-bit samples the halved sum and difference are
again in the signed 16-bit range; masking them to 16 bits and reading the
mask back as signed recovers them exactly (the wrap is pure two of-s
complement representation), and re-encoding them as 2 signed bytes never
overflows. -/
theorem C6_halving_in_range (L R : Int) (hL1 : -32768 ≤ L) (hL2 : L ≤ 32767)
    (hR1 : -32768 ≤ R) (hR2 : R ≤ 32767) :
    -32768 ≤ (L + R).fdiv 2 ∧ (L + R).fdiv 2 ≤ 32767 ∧
    -32768 ≤ (L - R).fdiv 2 ∧ (L - R).fdiv 2 ≤ 32767 ∧
    int16 (mask16 ((L + R).fdiv 2)) = (L + R).fdiv 2 ∧
    int16 (mask16 ((L - R).fdiv 2)) = (L - R).fdiv 2 ∧
    (intToBytesSigned ((L + R).fdiv 2) 2).isSome = true ∧
    (intToBytesSigned ((L - R).fdiv 2) 2).isSome = true := by
  unfold int16 mask16 intToBytesSigned
  rw [fdiv_two_eq_ediv, fdiv_two_eq_ediv]
  norm_num
  refine ⟨by omega, by omega, by omega, by omega, ?_, ?_, ?_, ?_⟩ <;> omega

/-- C6 witness: the in-range bounds, faithful masking and successful byte
re-encoding at the concrete pair (-300, 299). -/
theorem C6_halving_in_range_witness :
    -32768 ≤ ((-300 : Int) + 299).fdiv 2 ∧ ((-300 : Int) + 299).fdiv 2 ≤ 32767 ∧
    -32768 ≤ ((-300 : Int) - 299).fdiv 2 ∧ ((-300 : Int) - 299).fdiv 2 ≤ 32767 ∧
    int16 (mask16 (((-300 : Int) + 299).fdiv 2)) = ((-300 : Int) + 299).fdiv 2 ∧
    int16 (mask16 (((-300 : Int) - 299).fdiv 2)) = ((-300 : Int) - 299).fdiv 2 ∧
    (intToBytesSigned (((-300 : Int) + 299).fdiv 2) 2).isSome = true ∧
    (intToBytesSigned (((-300 : Int) - 299).fdiv 2) 2).isSome = true :=
  C6_halving_in_range (-300) 299 (by decide) (by decide) (by decide) (by decide)

/-! ### Header write followed by read -/

/-- Two-byte little-endian layout of natToBytes, by unfolding. -/
theorem natToBytes_two (n : Nat) : natToBytes n 2 = [n % 256, n / 256 % 256] := rfl

/-- Four-byte little-endian layout of natToBytes, by unfolding. -/
theorem natToBytes_four (n : Nat) :
    natToBytes n 4 =
      [n % 256, n / 256 % 256, n / 256 / 256 % 256, n / 256 / 256 / 256 % 256] := rfl

/-- Reading back a header written by escribir_cabecera_wave, with any payload
after it, succeeds and recovers every field: the four arguments as given and
the two derived fields by their formulas, with the remaining stream exactly
the payload. -/
theorem leer_escribir (nc sr bps ds : Nat) (hdr p : List Nat)
    (he : escribir_cabecera_wave nc sr bps ds = some hdr) :
    leer_cabecera_wave (hdr ++ p) =
      .ok (⟨nc, sr, sr * nc * bps / 8, nc * bps / 8, bps, ds⟩, p) := by
  unfold escribir_cabecera_wave at he
  dsimp only at he
  split_ifs at he with hcond
  obtain ⟨h1, h2, h3, h4, h5, h6, h7⟩ := hcond
  rw [Option.some_inj] at he
  subst he
  simp only [b_RIFF, b_WAVE, b_fmt, b_data, natToBytes_two, natToBytes_four,
    List.cons_append, List.nil_append, leer_cabecera_wave]
  norm_num [bytesToNat, Cabecera.mk.injEq]
  omega

/-- C7 counterexample: with channel count 65535 and 65535 bits per sample,
both within their 16-bit header fields, the derived block_align
(65535 * 65535 div 8 = 536854528) does not fit its own 16-bit field, so
write_header itself fails (struct.pack raises) and no header is produced. -/
theorem C7_header_fidelity_counterexample :
    escribir_cabecera_wave 65535 8000 65535 100 = none := by decide

/-- C7 amended: whenever every written header field fits its width, the four
arguments and also the derived byte_rate, block_align and RIFF total size,
writing a header and reading it back succeeds and returns exactly the four
arguments together with byte_rate = sample_rate * channels * bits / 8 and
block_align = channels * bits / 8. -/
theorem C7_header_fidelity_amended (nc sr bps ds : Nat)
    (h1 : nc < 65536) (h2 : sr < 4294967296) (h3 : bps < 65536)
    (h4 : ds < 4294967296) (h5 : sr * nc * bps / 8 < 4294967296)
    (h6 : nc * bps / 8 < 65536) (h7 : 36 + ds < 4294967296) :
    ∃ hdr, escribir_cabecera_wave nc sr bps ds = some hdr ∧
      leer_cabecera_wave hdr =
        .ok (⟨nc, sr, sr * nc * bps / 8, nc * bps / 8, bps, ds⟩, []) := by
  have hsome : ∃ hdr, escribir_cabecera_wave nc sr bps ds = some hdr := by
    unfold escribir_cabecera_wave
    dsimp only
    rw [if_pos ⟨by omega, h1, h2, h5, h6, h3, h4⟩]
    exact ⟨_, rfl⟩
  obtain ⟨hdr, hh⟩ := hsome
  refine ⟨hdr, hh, ?_⟩
  have hl := leer_escribir nc sr bps ds hdr [] hh
  rwa [List.append_nil] at hl

/-- C7 witness: write then read at the concrete arguments channels 2, rate
44100, 16 bits, 1000 data bytes. -/
theorem C7_header_fidelity_witness :
    ∃ hdr, escribir_cabecera_wave 2 44100 16 1000 = some hdr ∧
      leer_cabecera_wave hdr =
        .ok (⟨2, 44100, 44100 * 2 * 16 / 8, 2 * 16 / 8, 16, 1000⟩, []) :=
  C7_header_fidelity_amended 2 44100 16 1000 (by decide) (by decide) (by decide)
    (by decide) (by decide) (by decide) (by decide)

/-! ### Example files used by the witnesses -/

/-- A stereo 16-bit example file: header plus one frame with samples
L = 10 and R = 200. -/
def ejemploEstereo16 : List Nat :=
  (escribir_cabecera_wave 2 8000 16 4).getD [] ++ [10, 0, 200, 0]

/-- A mono 16-bit example file at rate 8000 with one sample. -/
def ejemploMono1 : List Nat :=
  (escribir_cabecera_wave 1 8000 16 2).getD [] ++ [10, 0]

/-- A mono 16-bit example file at rate 16000: differs from ejemploMono1 only
in the sample rate. -/
def ejemploMonoRate : List Nat :=
  (escribir_cabecera_wave 1 16000 16 2).getD [] ++ [20, 0]

/-- A mono 32-bit example file at rate 8000 with the same data size: differs
from ejemploMono1 only in bits per sample (and derived fields). -/
def ejemploMonoBits : List Nat :=
  (escribir_cabecera_wave 1 8000 32 2).getD [] ++ [20, 0]

/-- A mono 16-bit example file at rate 8000 with two samples: differs from
ejemploMono1 only in data size. -/
def ejemploMonoSize : List Nat :=
  (escribir_cabecera_wave 1 8000 16 4).getD [] ++ [20, 0, 30, 0]

/-- A stereo 8-bit example file. -/
def ejemploEstereo8 : List Nat :=
  (escribir_cabecera_wave 2 8000 8 2).getD [] ++ [1, 2]

/-- A coded mono 32-bit example file holding the single coded sample with
mid 75 in the high half and side 25 in the low half. -/
def ejemploCod32 : List Nat :=
  (escribir_cabecera_wave 1 8000 32 4).getD [] ++ [25, 0, 75, 0]

/-- C8: when both inputs of mono2stereo parse as one-channel headers, a
difference in sample_rate alone (whatever the other fields) yields the
sample-rate mismatch error; with equal rates, a difference in
bits_per_sample yields the bits mismatch error; with equal rates and bits, a
difference in data_size yields the data-length mismatch error.  Each error
is the distinct ValueError message naming the differing field. -/
theorem C8_mismatch_detection (f1 f2 : List Nat) (cab1 cab2 : Cabecera)
    (r1 r2 : List Nat)
    (hp1 : leer_cabecera_wave f1 = .ok (cab1, r1))
    (hp2 : leer_cabecera_wave f2 = .ok (cab2, r2))
    (hm1 : cab1.num_channels = 1) (hm2 : cab2.num_channels = 1) :
    (cab1.sample_rate ≠ cab2.sample_rate →
      mono2stereo f1 f2 = .error .mismatchSampleRate) ∧
    (cab1.sample_rate = cab2.sample_rate →
      cab1.bits_per_sample ≠ cab2.bits_per_sample →
      mono2stereo f1 f2 = .error .mismatchBits) ∧
    (cab1.sample_rate = cab2.sample_rate →
      cab1.bits_per_sample = cab2.bits_per_sample →
      cab1.data_size ≠ cab2.data_size →
      mono2stereo f1 f2 = .error .mismatchDataSize) := by
  unfold mono2stereo
  rw [hp1, hp2]
  refine ⟨fun h => ?_, fun he h => ?_, fun he hb h => ?_⟩
  · simp [hm1, hm2, h]
  · simp [hm1, hm2, he, h]
  · simp [hm1, hm2, he, hb, h]

/-- C8 witness: concrete one-channel file pairs differing only in sample
rate, only in bits per sample, and only in data size produce the three
mismatch errors. -/
theorem C8_mismatch_detection_witness :
    mono2stereo ejemploMono1 ejemploMonoRate = .error .mismatchSampleRate ∧
    mono2stereo ejemploMono1 ejemploMonoBits = .error .mismatchBits ∧
    mono2stereo ejemploMono1 ejemploMonoSize = .error .mismatchDataSize :=
  ⟨(C8_mismatch_detection ejemploMono1 ejemploMonoRate
      ⟨1, 8000, 16000, 2, 16, 2⟩ ⟨1, 16000, 32000, 2, 16, 2⟩ [10, 0] [20, 0]
      rfl rfl rfl rfl).1 (by decide),
   (C8_mismatch_detection ejemploMono1 ejemploMonoBits
      ⟨1, 8000, 16000, 2, 16, 2⟩ ⟨1, 8000, 32000, 4, 32, 2⟩ [10, 0] [20, 0]
      rfl rfl rfl rfl).2.1 rfl (by decide),
   (C8_mismatch_detection ejemploMono1 ejemploMonoSize
      ⟨1, 8000, 16000, 2, 16, 2⟩ ⟨1, 8000, 16000, 2, 16, 4⟩ [10, 0] [20, 0, 30, 0]
      rfl rfl rfl rfl).2.2 rfl rfl (by decide)⟩

/-- C9: every input whose header parses with two channels but a bit depth
other than 16 makes codEstereo fail with its unsupported-format error, and
every input whose header parses with a channel count other than 2 makes
estereo2mono fail with its not-stereo error, in both cases with no output
produced. -/
theorem C9_precondition_rejection :
    (∀ f : List Nat, ∀ cab : Cabecera, ∀ rest : List Nat,
      leer_cabecera_wave f = .ok (cab, rest) → cab.num_channels = 2 →
      cab.bits_per_sample ≠ 16 → codEstereo f = .error .unsupportedStereo16) ∧
    (∀ f : List Nat, ∀ cab : Cabecera, ∀ rest : List Nat, ∀ canal : Nat,
      leer_cabecera_wave f = .ok (cab, rest) → cab.num_channels ≠ 2 →
      estereo2mono f canal = .error .notStereo) := by
  constructor
  · intro f cab rest hp h2 hb
    unfold codEstereo
    rw [hp]
    simp [h2, hb]
  · intro f cab rest canal hp h2
    unfold estereo2mono
    rw [hp]
    simp [h2]

/-- C9 witness: the concrete 2-channel 8-bit file is rejected by codEstereo
and the concrete 1-channel file is rejected by estereo2mono. -/
theorem C9_precondition_rejection_witness :
    codEstereo ejemploEstereo8 = .error .unsupportedStereo16 ∧
    estereo2mono ejemploMono1 2 = .error .notStereo :=
  ⟨C9_precondition_rejection.1 ejemploEstereo8 ⟨2, 8000, 16000, 2, 8, 2⟩ [1, 2]
      rfl rfl (by decide),
   C9_precondition_rejection.2 ejemploMono1 ⟨1, 8000, 16000, 2, 16, 2⟩ [10, 0] 2
      rfl (by decide)⟩

/-- Output invariant of C10: the produced file parses back and its declared
data_size equals the byte length of the payload that follows the header. -/
def headerMatchesPayload (out : List Nat) : Prop :=
  ∃ cab rest, leer_cabecera_wave out = .ok (cab, rest) ∧ cab.data_size = rest.length

/-- A written header whose declared data_size is the length of the payload
appended after it satisfies the output invariant. -/
theorem headerMatches_append (nc sr bps : Nat) (payload cabBytes : List Nat)
    (he : escribir_cabecera_wave nc sr bps payload.length = some cabBytes) :
    headerMatchesPayload (cabBytes ++ payload) :=
  ⟨_, _, leer_escribir nc sr bps payload.length cabBytes payload he, rfl⟩

/-- A second mono 16-bit example file with the same rate, bits and size as
ejemploMono1. -/
def ejemploMono2 : List Nat :=
  (escribir_cabecera_wave 1 8000 16 2).getD [] ++ [200, 0]

/-- C10: every converter that succeeds produces a file whose header declares
a data_size equal to the exact byte length of the payload written after it,
the length of the freshly transformed data; this holds for every input,
including inputs whose own payload is shorter than their declared data_size,
because the value is recomputed from the transformed bytes and never copied
from the input header. -/
theorem C10_output_data_size :
    (∀ f : List Nat, ∀ canal : Nat, ∀ out : List Nat,
      estereo2mono f canal = .ok out → headerMatchesPayload out) ∧
    (∀ f1 f2 out : List Nat, mono2stereo f1 f2 = .ok out → headerMatchesPayload out) ∧
    (∀ f out : List Nat, codEstereo f = .ok out → headerMatchesPayload out) ∧
    (∀ f out : List Nat, decEstereo f = .ok out → headerMatchesPayload out) := by
  refine ⟨fun f canal out h => ?_, fun f1 f2 out h => ?_,
    fun f out h => ?_, fun f out h => ?_⟩
  · unfold estereo2mono at h
    dsimp only at h
    repeat' split at h
    any_goals exact Except.noConfusion h
    rename_i cabBytes heq
    rw [Except.ok.injEq] at h
    subst h
    exact headerMatches_append _ _ _ _ _ heq
  · unfold mono2stereo at h
    dsimp only at h
    repeat' split at h
    any_goals exact Except.noConfusion h
    rename_i cabBytes heq
    rw [Except.ok.injEq] at h
    subst h
    exact headerMatches_append _ _ _ _ _ heq
  · unfold codEstereo at h
    dsimp only at h
    repeat' split at h
    any_goals exact Except.noConfusion h
    rename_i cabBytes heq
    rw [Except.ok.injEq] at h
    subst h
    exact headerMatches_append _ _ _ _ _ heq
  · unfold decEstereo at h
    dsimp only at h
    repeat' split at h
    any_goals exact Except.noConfusion h
    rename_i cabBytes heq
    rw [Except.ok.injEq] at h
    subst h
    exact headerMatches_append _ _ _ _ _ heq

/-- C10 witness: the output invariant at one successful run of each of the
four converters on concrete files. -/
theorem C10_output_data_size_witness :
    headerMatchesPayload ((estereo2mono ejemploEstereo16 2).toOption.getD []) ∧
    headerMatchesPayload ((mono2stereo ejemploMono1 ejemploMono2).toOption.getD []) ∧
    headerMatchesPayload ((codEstereo ejemploEstereo16).toOption.getD []) ∧
    headerMatchesPayload ((decEstereo ejemploCod32).toOption.getD []) :=
  ⟨C10_output_data_size.1 ejemploEstereo16 2 _ (by rfl),
   C10_output_data_size.2.1 ejemploMono1 ejemploMono2 _ (by rfl),
   C10_output_data_size.2.2.1 ejemploEstereo16 _ (by rfl),
   C10_output_data_size.2.2.2 ejemploCod32 _ (by rfl)⟩

/-! ### C5: splitting a stereo payload and merging it back -/

/-- Round trip of a two-byte signed decode followed by a two-byte signed
encode: on genuine byte values it returns exactly the original two bytes. -/
theorem toFrom2 (a b : Nat) (ha : a < 256) (hb : b < 256) :
    intToBytesSigned (intFromBytesSigned [a, b]) 2 = some [a, b] := by
  unfold intFromBytesSigned intToBytesSigned
  dsimp only
  simp only [bytesToNat, List.length_cons, List.length_nil]
  norm_num
  split_ifs <;>
    simp only [natToBytes_two, Option.some.injEq, List.cons.injEq, and_true] <;>
    omega

/-- Rewriting rule for procesar_muestra from the values of its two stages. -/
theorem procesar_muestra_eq_ok (m bs : List Nat) (tam canal : Nat) (res : Int)
    (hres : procesar_res (intFromBytesSigned (m.take tam))
      (intFromBytesSigned ((m.drop tam).take tam)) canal = some res)
    (henc : intToBytesSigned res tam = some bs) :
    procesar_muestra m tam canal = .ok bs := by
  unfold procesar_muestra
  rw [hres]
  dsimp only
  rw [henc]

/-- Left-channel extraction of procesar_muestra on a 4-byte frame of genuine
bytes: mode 0 returns the first two bytes unchanged. -/
theorem procesar_left (a b c d : Nat) (ha : a < 256) (hb : b < 256) :
    procesar_muestra [a, b, c, d] 2 0 = .ok [a, b] :=
  procesar_muestra_eq_ok [a, b, c, d] [a, b] 2 0 (intFromBytesSigned [a, b]) rfl
    (toFrom2 a b ha hb)

/-- Right-channel extraction of procesar_muestra on a 4-byte frame of genuine
bytes: mode 1 returns the last two bytes unchanged. -/
theorem procesar_right (a b c d : Nat) (hc : c < 256) (hd : d < 256) :
    procesar_muestra [a, b, c, d] 2 1 = .ok [c, d] :=
  procesar_muestra_eq_ok [a, b, c, d] [c, d] 2 1 (intFromBytesSigned [c, d]) rfl
    (toFrom2 c d hc hd)

/-- Splitting a whole-frame stereo payload of genuine bytes into its left and
right channel payloads (modes 0 and 1 over 4-byte frames) succeeds, the two
channel payloads have equal length summing to the original, and interleaving
them two bytes at a time rebuilds the original payload byte for byte. -/
theorem payload_split_merge : ∀ datos : List Nat, datos.length % 4 = 0 →
    (∀ x ∈ datos, x < 256) →
    ∃ izq der : List (List Nat),
      procesarTodas (chunks 4 datos) 2 0 = .ok izq ∧
      procesarTodas (chunks 4 datos) 2 1 = .ok der ∧
      izq.flatten.length = der.flatten.length ∧
      2 * izq.flatten.length = datos.length ∧
      mono2stereoPayload 2 izq.flatten der.flatten = datos
  | [], _, _ => ⟨[], [], rfl, rfl, rfl, rfl, rfl⟩
  | [a], h4, _ => by simp at h4
  | [a, b], h4, _ => by simp at h4
  | [a, b, c], h4, _ => by simp at h4
  | [a, b, c, d], h4, hb => by
    have ha' : a < 256 := hb a (by simp)
    have hb' : b < 256 := hb b (by simp)
    have hc' : c < 256 := hb c (by simp)
    have hd' : d < 256 := hb d (by simp)
    have hc4 : chunks 4 [a, b, c, d] = [[a, b, c, d]] := by
      rw [chunks_cons]
      rfl
    refine ⟨[[a, b]], [[c, d]], ?_, ?_, rfl, rfl, rfl⟩
    · rw [hc4]
      unfold procesarTodas
      rw [procesar_left a b c d ha' hb']
      rfl
    · rw [hc4]
      unfold procesarTodas
      rw [procesar_right a b c d hc' hd']
      rfl
  | (a :: b :: c :: d :: e :: t), h4, hb => by
    have h4t : (e :: t).length % 4 = 0 := by
      simp only [List.length_cons] at h4 ⊢
      omega
    have hbt : ∀ x ∈ e :: t, x < 256 := fun x hx => hb x (by simp [hx])
    obtain ⟨izq, der, h1, h2, h3, h5, h6⟩ := payload_split_merge (e :: t) h4t hbt
    have ha' : a < 256 := hb a (by simp)
    have hb' : b < 256 := hb b (by simp)
    have hc' : c < 256 := hb c (by simp)
    have hd' : d < 256 := hb d (by simp)
    have hc4 : chunks 4 (a :: b :: c :: d :: e :: t) =
        [a, b, c, d] :: chunks 4 (e :: t) := by
      rw [chunks_cons]
      rfl
    refine ⟨[a, b] :: izq, [c, d] :: der, ?_, ?_, ?_, ?_, ?_⟩
    · rw [hc4]
      unfold procesarTodas
      rw [procesar_left a b c d ha' hb']
      dsimp only
      rw [h1]
    · rw [hc4]
      unfold procesarTodas
      rw [procesar_right a b c d hc' hd']
      dsimp only
      rw [h2]
    · simp only [List.flatten_cons, List.length_append, List.length_cons,
        List.length_nil]
      omega
    · simp only [List.flatten_cons, List.length_append, List.length_cons,
        List.length_nil, List.length_cons] at h5 ⊢
      omega
    · show mono2stereoPayload 2 (a :: b :: izq.flatten) (c :: d :: der.flatten) = _
      rw [mono2stereoPayload_cons]
      simp only [List.take, List.drop]
      rw [h6]
      rfl

/-- escribir_cabecera_wave succeeds whenever every written field fits. -/
theorem escribir_isSome (nc sr bps ds : Nat)
    (h1 : 36 + ds < 4294967296) (h2 : nc < 65536) (h3 : sr < 4294967296)
    (h4 : sr * nc * bps / 8 < 4294967296) (h5 : nc * bps / 8 < 65536)
    (h6 : bps < 65536) :
    ∃ hdr, escribir_cabecera_wave nc sr bps ds = some hdr := by
  unfold escribir_cabecera_wave
  dsimp only
  rw [if_pos ⟨by omega, h2, h3, h4, h5, h6, by omega⟩]
  exact ⟨_, rfl⟩

/-- C5: for a well-formed 16-bit stereo file (a parse result with two
channels and 16 bits per sample, a payload at least as long as the declared
data_size, whole 4-byte frames, genuine byte values, and a sample rate and
data size small enough for the derived output header fields to fit, as in
any file a standard writer can produce), extracting the left channel with
estereo2mono in mode 0 and the right channel in mode 1 and handing the two
mono outputs to mono2stereo succeeds, and the reconstructed file carries the
original stereo payload byte for byte. -/
theorem C5_split_merge (f : List Nat) (cab : Cabecera) (rest : List Nat)
    (hp : leer_cabecera_wave f = .ok (cab, rest))
    (hch : cab.num_channels = 2) (hbits : cab.bits_per_sample = 16)
    (hlen : cab.data_size ≤ rest.length)
    (h4 : cab.data_size % 4 = 0)
    (hby : ∀ x ∈ rest.take cab.data_size, x < 256)
    (hsr : 4 * cab.sample_rate < 4294967296)
    (hds : 36 + cab.data_size < 4294967296) :
    ∃ fIzq fDer out : List Nat, ∃ cabOut : Cabecera,
      estereo2mono f 0 = .ok fIzq ∧
      estereo2mono f 1 = .ok fDer ∧
      mono2stereo fIzq fDer = .ok out ∧
      leer_cabecera_wave out = .ok (cabOut, rest.take cab.data_size) := by
  have hdl : (rest.take cab.data_size).length = cab.data_size := by
    rw [List.length_take]
    omega
  obtain ⟨izq, der, h1, h2, h3, h5, h6⟩ :=
    payload_split_merge (rest.take cab.data_size) (by rw [hdl]; exact h4) hby
  have hlen1 : 2 * izq.flatten.length = cab.data_size := by rw [← hdl]; exact h5
  obtain ⟨hdr1, hw1⟩ := escribir_isSome 1 cab.sample_rate 16 izq.flatten.length
    (by omega) (by omega) (by omega) (by omega) (by omega) (by omega)
  obtain ⟨hdr2, hw2⟩ := escribir_isSome 1 cab.sample_rate 16 der.flatten.length
    (by omega) (by omega) (by omega) (by omega) (by omega) (by omega)
  have he1 : estereo2mono f 0 = .ok (hdr1 ++ izq.flatten) := by
    unfold estereo2mono
    rw [hp]
    dsimp only
    rw [if_neg (by simp [hch])]
    rw [hbits]
    simp only [show (16 : Nat) / 8 = 2 from rfl, show 2 * 2 = 4 from rfl]
    rw [if_neg (by omega)]
    rw [h1]
    dsimp only
    rw [hw1]
  have he2 : estereo2mono f 1 = .ok (hdr2 ++ der.flatten) := by
    unfold estereo2mono
    rw [hp]
    dsimp only
    rw [if_neg (by simp [hch])]
    rw [hbits]
    simp only [show (16 : Nat) / 8 = 2 from rfl, show 2 * 2 = 4 from rfl]
    rw [if_neg (by omega)]
    rw [h2]
    dsimp only
    rw [hw2]
  have hl1 := leer_escribir 1 cab.sample_rate 16 izq.flatten.length hdr1
    izq.flatten hw1
  have hl2 := leer_escribir 1 cab.sample_rate 16 der.flatten.length hdr2
    der.flatten hw2
  obtain ⟨hdrO, hwO⟩ := escribir_isSome 2 cab.sample_rate 16
    (rest.take cab.data_size).length
    (by omega) (by omega) (by omega) (by omega) (by omega) (by omega)
  have hm : mono2stereo (hdr1 ++ izq.flatten) (hdr2 ++ der.flatten) =
      .ok (hdrO ++ rest.take cab.data_size) := by
    unfold mono2stereo
    rw [hl1, hl2]
    dsimp only
    rw [if_neg (by simp)]
    rw [if_neg (by simp)]
    rw [if_neg (by simp)]
    rw [if_neg (by simp [h3])]
    rw [if_neg (by norm_num)]
    rw [List.take_length, List.take_length]
    simp only [show (16 : Nat) / 8 = 2 from rfl]
    rw [h6]
    rw [hwO]
  have hlO := leer_escribir 2 cab.sample_rate 16 (rest.take cab.data_size).length
    hdrO (rest.take cab.data_size) hwO
  exact ⟨hdr1 ++ izq.flatten, hdr2 ++ der.flatten, hdrO ++ rest.take cab.data_size,
    ⟨2, cab.sample_rate, cab.sample_rate * 2 * 16 / 8, 2 * 16 / 8, 16,
      (rest.take cab.data_size).length⟩, he1, he2, hm, hlO⟩

/-- C5 witness: the split and merge round trip on the concrete stereo file
with one frame of samples L = 10 and R = 200. -/
theorem C5_split_merge_witness :
    ∃ fIzq fDer out : List Nat, ∃ cabOut : Cabecera,
      estereo2mono ejemploEstereo16 0 = .ok fIzq ∧
      estereo2mono ejemploEstereo16 1 = .ok fDer ∧
      mono2stereo fIzq fDer = .ok out ∧
      leer_cabecera_wave out = .ok (cabOut, [10, 0, 200, 0]) :=
  C5_split_merge ejemploEstereo16 ⟨2, 8000, 32000, 4, 16, 4⟩ [10, 0, 200, 0]
    rfl rfl rfl (by decide) (by decide) (by decide) (by decide) (by decide)
